import Mathlib

/-!
Verification development for the model-rotation core of the repository:
the rotation state store (`state-manager.ts`), the rotation engine
(`rotation-engine.ts`) and the error classifier (`error-parser.ts`).

Timestamps (`Date.now()`, ISO-8601 strings) are modelled as `Nat`
milliseconds; every operation that reads the clock in the source takes an
explicit `now : Nat` argument.  The persisted JSON object mapping model
identifiers to per-model records is modelled as an association list, and
each `saveState()` call is counted in a `persists` field so that
persistence discipline can be stated.  All definitions are translated
from the TypeScript source.
-/

namespace ModelRotation

/-- Mirrors `RotationConfig` from `types.ts`. -/
inductive LimitType where
  | calls
  | tokens
deriving DecidableEq

structure RotationConfig where
  enabled : Bool
  limitType : LimitType
  limitValue : Nat
  cooldownMs : Nat

/-- Mirrors `ModelUsageStats` from `types.ts`.  `lastUsedAt` is an ISO
string in the source, always set from a real date, hence always truthy;
we model it as a `Nat` timestamp.  `cooldownUntil` is `string | null`,
modelled as `Option Nat`. -/
structure ModelUsageStats where
  callCount : Nat
  tokenCount : Option Nat
  lastUsedAt : Nat
  inCooldown : Bool
  cooldownUntil : Option Nat
deriving DecidableEq

/-- Mirrors `ModelRotationState` from `types.ts`. -/
structure ModelRotationState where
  usage : ModelUsageStats
  depleted : Bool
deriving DecidableEq

/-- The `RotationStateManager`'s in-memory state (a JSON object keyed by
model id) plus a count of `saveState()` calls, used to state the
persistence discipline. -/
structure Store where
  state : List (String × ModelRotationState)
  persists : Nat
deriving DecidableEq

/-- Mirrors `RotationResult` from `types.ts`. -/
structure RotationResult where
  rotated : Bool
  nextModel : Option String
  reason : Option String
  allDepleted : Bool
deriving DecidableEq

/-- Association-list lookup, modelling property access on the state
object (`this.inMemoryState[model]`). -/
def alookup {α : Type} (model : String) : List (String × α) → Option α
  | [] => none
  | (k, w) :: rest => if k = model then some w else alookup model rest

/-- Assignment `this.inMemoryState[model] = updated`: replace the entry
in place, or append a fresh key. -/
def setEntry {α : Type} (model : String) (v : α) : List (String × α) → List (String × α)
  | [] => [(model, v)]
  | (k, w) :: rest => if k = model then (model, v) :: rest else (k, w) :: setEntry model v rest

/-- `RotationStateManager.createEmptyModelState`. -/
def createEmptyModelState (now : Nat) : ModelRotationState :=
  { usage :=
      { callCount := 0
        tokenCount := none
        lastUsedAt := now
        inCooldown := false
        cooldownUntil := none }
    depleted := false }

/-- `RotationStateManager.updateModelState`: read the current record (or
a fresh zero record), apply the updater, write back, persist. -/
def updateModelState (now : Nat) (model : String)
    (updater : ModelRotationState → ModelRotationState) (store : Store) : Store :=
  let current := (alookup model store.state).getD (createEmptyModelState now)
  { state := setEntry model (updater current) store.state
    persists := store.persists + 1 }

/-- `RotationStateManager.incrementUsage`.  The optional `tokensUsed`
argument adds to the token counter only when it is a number. -/
def incrementUsage (now : Nat) (model : String) (tokensUsed : Option Nat) (store : Store) : Store :=
  updateModelState now model (fun current =>
    { usage :=
        { current.usage with
          callCount := current.usage.callCount + 1
          tokenCount :=
            match tokensUsed with
            | some t => some (current.usage.tokenCount.getD 0 + t)
            | none => current.usage.tokenCount
          lastUsedAt := now }
      depleted := current.depleted }) store

/-- `RotationStateManager.markDepleted`. -/
def markDepleted (now : Nat) (model : String) (cooldownMs : Nat) (store : Store) : Store :=
  updateModelState now model (fun current =>
    { usage :=
        { current.usage with
          lastUsedAt := now
          inCooldown := true
          cooldownUntil := some (now + cooldownMs) }
      depleted := true }) store

/-- `RotationStateManager.markAvailable`.  Clears cooldown and depletion
but, as in the source, does not touch the usage counters. -/
def markAvailable (now : Nat) (model : String) (store : Store) : Store :=
  updateModelState now model (fun current =>
    { usage :=
        { current.usage with
          inCooldown := false
          cooldownUntil := none }
      depleted := false }) store

/-- Cooldown check on a single record: the body of
`RotationStateManager.isInCooldown` after the lookup.  A `null`
`cooldownUntil` yields `new Date(null)` (the epoch), so the comparison
`now < cooldownUntil` is false. -/
def stInCooldown (now : Nat) (st : ModelRotationState) : Bool :=
  st.usage.inCooldown &&
    (match st.usage.cooldownUntil with
     | some t => decide (now < t)
     | none => false)

/-- `RotationStateManager.isInCooldown`. -/
def isInCooldown (now : Nat) (model : String) (state : List (String × ModelRotationState)) : Bool :=
  match alookup model state with
  | some st => stInCooldown now st
  | none => false

/-- `RotationStateManager.resetUsage`: zeroes the counters and clears
`depleted`, leaving the cooldown fields untouched. -/
def resetUsage (now : Nat) (model : String) (store : Store) : Store :=
  updateModelState now model (fun current =>
    { usage :=
        { current.usage with
          callCount := 0
          tokenCount := none }
      depleted := false }) store

/-- Removal condition of `RotationStateManager.pruneOldModels` for one
record, at a given cutoff.  The source also guards on the truthiness of
`lastUsedAt`, which is always a non-empty ISO string, hence always
truthy. -/
def pruneCond (cutoff : Nat) (st : ModelRotationState) : Bool :=
  decide (st.usage.lastUsedAt < cutoff) && !st.usage.inCooldown &&
    decide (st.usage.callCount = 0)

/-- `RotationStateManager.pruneOldModels`: deletes every record matching
`pruneCond` and persists only when something was deleted.  The JS cutoff
`Date.now() - maxAgeDays*24*60*60*1000` may be negative, in which case
no record is older than it; `Nat` truncation at zero gives the same
behavior since timestamps are non-negative. -/
def pruneOldModels (now : Nat) (maxAgeDays : Nat) (store : Store) : Store :=
  let cutoff := now - maxAgeDays * 86400000
  let keep := store.state.filter (fun e => !pruneCond cutoff e.2)
  { state := keep
    persists := if keep.length < store.state.length then store.persists + 1 else store.persists }

/-- Scan step of `RotationStateManager.selectAvailableModel`: either
returns the chosen model together with the (possibly mutated) store, or
`none` when every listed model is unavailable. -/
def selectScan (now : Nat) (store : Store) : List String → Option (String × Store)
  | [] => none
  | model :: rest =>
    match alookup model store.state with
    | none => some (model, store)
    | some st =>
      if st.usage.inCooldown &&
          (match st.usage.cooldownUntil with
           | some t => decide (t ≤ now)
           | none => false) then
        some (model, markAvailable now model store)
      else if !st.depleted && !isInCooldown now model store.state then
        some (model, store)
      else
        selectScan now store rest

/-- `RotationStateManager.selectAvailableModel`.  An empty list yields
`none`; a single-element list is returned immediately without touching
the store; otherwise the store is pruned, the list is scanned and, when
every model is unavailable, the first model is returned as fallback. -/
def selectAvailableModel (now : Nat) (models : List String) (store : Store) :
    Option String × Store :=
  match models with
  | [] => (none, store)
  | [m] => (some m, store)
  | m1 :: m2 :: rest =>
    let store' := pruneOldModels now 30 store
    match selectScan now store' (m1 :: m2 :: rest) with
    | some (m, s) => (some m, s)
    | none => (some m1, store')

/-- The shared no-op `RotationResult` returned by both rotation entry
points when rotation is disabled or the pool is trivial. -/
def noResult : RotationResult :=
  { rotated := false, nextModel := none, reason := none, allDepleted := false }

/-- Scan loop of `RotationEngine.findNextAvailableModel`: returns the
first model that is untracked, or tracked but neither depleted nor in an
active cooldown.  It does not take the current model and does not start
after it. -/
def findScan (now : Nat) (state : List (String × ModelRotationState)) : List String → Option String
  | [] => none
  | model :: rest =>
    match alookup model state with
    | none => some model
    | some st =>
      if !st.depleted && !isInCooldown now model state then some model
      else findScan now state rest

/-- `RotationEngine.findNextAvailableModel`: prunes stale entries (30-day
horizon) and scans the pool from its head. -/
def findNextAvailableModel (now : Nat) (models : List String) (store : Store) :
    Option String × Store :=
  let store' := pruneOldModels now 30 store
  (findScan now store'.state models, store')

/-- `RotationEngine.markAllDepleted`: sequential loop over the pool,
marking every tracked, not-yet-depleted model depleted. -/
def markAllDepleted (cfg : RotationConfig) (now : Nat) :
    List String → Store → Store
  | [], store => store
  | model :: rest, store =>
    markAllDepleted cfg now rest
      (match alookup model store.state with
       | some st => if !st.depleted then markDepleted now model cfg.cooldownMs store else store
       | none => store)

/-- `RotationEngine.rotate` (private): the rotation algorithm shared by
the proactive and reactive entry points. -/
def rotate (cfg : RotationConfig) (now : Nat) (currentModel : String) (models : List String)
    (reason : String) (store : Store) : RotationResult × Store :=
  let scanned := findNextAvailableModel now models store
  match scanned.1 with
  | none =>
    ({ rotated := true, nextModel := none, reason := some reason, allDepleted := true },
      markAllDepleted cfg now models scanned.2)
  | some next =>
    ({ rotated := true, nextModel := some next, reason := some reason, allDepleted := false },
      markDepleted now currentModel cfg.cooldownMs scanned.2)

/-- `RotationEngine.shouldRotate` (proactive path).  Only the call-count
limit kind has a rotation branch in the source. -/
def shouldRotate (cfg : RotationConfig) (now : Nat) (currentModel : String)
    (models : List String) (store : Store) : RotationResult × Store :=
  if cfg.enabled = false ∨ models.length ≤ 1 then (noResult, store)
  else
    match alookup currentModel store.state with
    | none => (noResult, store)
    | some st =>
      if cfg.limitType = LimitType.calls ∧ cfg.limitValue ≤ st.usage.callCount then
        rotate cfg now currentModel models
          ("Usage limit reached (" ++ toString st.usage.callCount ++ "/" ++
            toString cfg.limitValue ++ " calls)") store
      else (noResult, store)

/-- `RotationEngine.rotateOnError` (reactive path). -/
def rotateOnError (cfg : RotationConfig) (now : Nat) (currentModel : String)
    (models : List String) (store : Store) : RotationResult × Store :=
  if cfg.enabled = false ∨ models.length ≤ 1 then (noResult, store)
  else rotate cfg now currentModel models "API quota/rate limit error" store

/-- `RotationEngine.recordUsage`.  The source method is declared as
`recordUsage(model: string): void` — it has no token parameter and calls
`incrementUsage(model)` with no token delta, even though the caller in
`hooks.ts` passes a `tokensUsed` second argument (dropped by JS call
semantics). -/
def recordUsage (cfg : RotationConfig) (now : Nat) (model : String) (store : Store) : Store :=
  if cfg.enabled then incrementUsage now model none store else store

/-- `RotationEngine.getNextModel`: exposes the availability scan.  Its
source signature takes only the pool. -/
def getNextModel (now : Nat) (models : List String) (store : Store) : Option String × Store :=
  findNextAvailableModel now models store

/-! ## Error classifier (`error-parser.ts`)

JavaScript values fed to `ErrorParser.parseError` are modelled as finite
trees.  Arrays are not needed by any classified payload and are omitted.
The embedding is a total computable function, mirroring the source's
"never raises" contract. -/

inductive JsValue where
  | vNull
  | vStr (s : String)
  | vNum (n : Int)
  | vBool (b : Bool)
  | vObj (fields : List (String × JsValue))

/-- Mirrors the `provider` union of `types.ts`. -/
inductive Provider where
  | anthropic
  | openai
  | google
  | unknown
deriving DecidableEq

/-- Mirrors the `errorType` union of `types.ts`. -/
inductive ErrorType where
  | rate_limit
  | quota
  | model_not_found
  | other
deriving DecidableEq

/-- Mirrors `ParsedError` from `types.ts`. -/
structure ParsedError where
  isRotationTriggering : Bool
  errorType : ErrorType
  provider : Provider
  message : String
deriving DecidableEq

/-- JavaScript `String(v)` coercion on the shapes we model. -/
def jsToString : JsValue → String
  | .vNull => "null"
  | .vStr s => s
  | .vNum n => toString n
  | .vBool b => toString b
  | .vObj _ => "[object Object]"

/-- JavaScript `String(x ?? "")` where `x` is an optional field access:
both a missing field (`undefined`) and an explicit `null` coalesce to
the empty string. -/
def strOrEmpty : Option JsValue → String
  | none => ""
  | some .vNull => ""
  | some v => jsToString v

/-- JavaScript truthiness on the shapes we model. -/
def isFalsy : JsValue → Bool
  | .vNull => true
  | .vStr s => s.isEmpty
  | .vNum n => n == 0
  | .vBool b => !b
  | .vObj _ => false

/-- Optional-chained field access `v?.name`: non-objects have no
(defined) properties. -/
def objField : Option JsValue → String → Option JsValue
  | some (.vObj fs), name => alookup name fs
  | _, _ => none

/-- Field access whose result must be a string (`typeof x === "string"`
guards in the source). -/
def strField : Option JsValue → Option String
  | some (.vStr s) => some s
  | _ => none

/-- ASCII lowercasing, matching `String.prototype.toLowerCase` on the
vocabulary used by the classifier. -/
def lowerStr (s : String) : String :=
  ⟨s.data.map Char.toLower⟩

/-- Substring matching on character lists, used to model
`String.prototype.includes`. -/
def charsStartWith : List Char → List Char → Bool
  | _, [] => true
  | [], _ :: _ => false
  | a :: as, b :: bs => a == b && charsStartWith as bs

def charsContain : List Char → List Char → Bool
  | [], needle => needle.isEmpty
  | h :: t, needle => charsStartWith (h :: t) needle || charsContain t needle

/-- JavaScript `hay.includes(needle)`. -/
def jsIncludes (hay needle : String) : Bool :=
  charsContain hay.data needle.data

/-- `ROTATION_ERROR_KEYWORDS` from `constants.ts`. -/
def rotationErrorKeywords : List String :=
  ["rate limit", "quota exceeded", "too many requests", "429", "rate_limited",
   "quota_exceeded", "resource_exhausted", "service_unavailable", "insufficient_quota",
   "overloaded", "rate_limit_error", "permission_denied", "maximum quota",
   "model not found", "modelfound", "ProviderModelNotFoundError", "not found",
   "invalid model", "does not exist"]

/-- `ErrorParser.containsRotationKeywords`. -/
def containsRotationKeywords (text : String) : Bool :=
  rotationErrorKeywords.any (fun keyword => jsIncludes (lowerStr text) (lowerStr keyword))

/-- `ErrorParser.defaultResult`. -/
def defaultResult (message : String) : ParsedError :=
  { isRotationTriggering := false, errorType := .other, provider := .unknown
    message := message }

/-- `ErrorParser.extractMessage`: ordered fallback chain
`message` → `error.message` → `error.data.error.message` → `details` →
`error.details` → `String(error)` (objects stringify to
`"[object Object]"`). -/
def extractMessage (fs : List (String × JsValue)) : String :=
  match strField (alookup "message" fs) with
  | some s => s
  | none =>
    match strField (objField (alookup "error" fs) "message") with
    | some s => s
    | none =>
      match strField
          (objField (objField (objField (alookup "error" fs) "data") "error") "message") with
      | some s => s
      | none =>
        match strField (alookup "details" fs) with
        | some s => s
        | none =>
          match strField (objField (alookup "error" fs) "details") with
          | some s => s
          | none => "[object Object]"

/-- `ErrorParser.determineErrorType`. -/
def determineErrorType (message : String) (fs : List (String × JsValue)) : ErrorType :=
  let lowerMessage := lowerStr message
  let errorType := lowerStr (strOrEmpty (alookup "type" fs))
  let errorCode := lowerStr (strOrEmpty (alookup "code" fs))
  let errorStatus := lowerStr (strOrEmpty (alookup "status" fs))
  let errorName := lowerStr (strOrEmpty (alookup "name" fs))
  if jsIncludes lowerMessage "not found" || jsIncludes lowerMessage "does not exist" ||
      jsIncludes lowerMessage "invalid model" || jsIncludes errorName "modelnotfound" ||
      jsIncludes errorType "not_found" then
    .model_not_found
  else if jsIncludes lowerMessage "quota" || jsIncludes lowerMessage "insufficient" ||
      jsIncludes lowerMessage "exhausted" || jsIncludes errorType "quota" ||
      jsIncludes errorCode "quota" || jsIncludes errorCode "insufficient" ||
      errorStatus == "resource_exhausted" then
    .quota
  else
    .rate_limit

/-- `ErrorParser.determineErrorTypeFromString`. -/
def determineErrorTypeFromString (text : String) : ErrorType :=
  let lowerText := lowerStr text
  if jsIncludes lowerText "not found" || jsIncludes lowerText "does not exist" ||
      jsIncludes lowerText "invalid model" || jsIncludes lowerText "modelnotfound" then
    .model_not_found
  else if jsIncludes lowerText "quota" || jsIncludes lowerText "insufficient" ||
      jsIncludes lowerText "exhausted" then
    .quota
  else
    .rate_limit

/-- `ErrorParser.detectProvider`: name-based hint from the `model`
field. -/
def detectProvider (fs : List (String × JsValue)) : Provider :=
  let model := lowerStr (strOrEmpty (alookup "model" fs))
  if jsIncludes model "anthropic" || jsIncludes model "claude" then .anthropic
  else if jsIncludes model "openai" || jsIncludes model "gpt" then .openai
  else if jsIncludes model "google" || jsIncludes model "gemini" then .google
  else .unknown

/-- `ErrorParser.detectProviderFromErrorType`. -/
def detectProviderFromErrorType (fs : List (String × JsValue)) : Provider :=
  match alookup "error" fs with
  | none => .unknown
  | some nested =>
    if isFalsy nested then .unknown
    else
      let errorType := lowerStr (strOrEmpty (objField (some nested) "type"))
      let errorCode := lowerStr (strOrEmpty (objField (some nested) "code"))
      let errorStatus := lowerStr (strOrEmpty (objField (some nested) "status"))
      if jsIncludes errorCode "rate_limit" || jsIncludes errorCode "insufficient" then .openai
      else if jsIncludes errorType "rate_limit" || errorType == "quota_exceeded" ||
          errorType == "overloaded_error" then .anthropic
      else if errorStatus == "resource_exhausted" then .google
      else .unknown

/-- `ErrorParser.detectProviderFromString`. -/
def detectProviderFromString (text : String) : Provider :=
  let lowerText := lowerStr text
  if jsIncludes lowerText "anthropic" || jsIncludes lowerText "claude" then .anthropic
  else if jsIncludes lowerText "openai" || jsIncludes lowerText "gpt" then .openai
  else if jsIncludes lowerText "google" || jsIncludes lowerText "gemini" then .google
  else .unknown

/-- `ErrorParser.parseFromString`. -/
def parseFromString (s : String) (provider : Provider) : ParsedError :=
  if containsRotationKeywords s then
    { isRotationTriggering := true
      errorType := determineErrorTypeFromString s
      provider := if provider = .unknown then detectProviderFromString s else provider
      message := s }
  else defaultResult s

/-- `ErrorParser.parseNestedError`.  The recursion into
`error.data.error` descends into a strictly smaller subobject, which
gives termination. -/
def parseNestedError (fs : List (String × JsValue)) (parentProvider : Provider) : ParsedError :=
  let errorType := lowerStr (strOrEmpty (alookup "type" fs))
  let errorCode := lowerStr (strOrEmpty (alookup "code" fs))
  let errorStatus := lowerStr (strOrEmpty (alookup "status" fs))
  let message := extractMessage fs
  let provider :=
    if parentProvider = .unknown then
      if jsIncludes errorCode "rate_limit" || jsIncludes errorCode "insufficient_quota" then
        Provider.openai
      else if errorStatus == "resource_exhausted" then Provider.google
      else if jsIncludes errorType "rate_limit" || errorType == "quota_exceeded" ||
          errorType == "overloaded_error" then Provider.anthropic
      else parentProvider
    else parentProvider
  if jsIncludes errorType "rate_limit" || jsIncludes errorType "quota" ||
      jsIncludes errorCode "rate_limit" || jsIncludes errorCode "quota" ||
      jsIncludes errorCode "insufficient" || errorStatus == "resource_exhausted" ||
      containsRotationKeywords message then
    { isRotationTriggering := true
      errorType := determineErrorType message fs
      provider := provider
      message := message }
  else
    match h1 : alookup "data" fs with
    | some (.vObj dfs) =>
      (match h2 : alookup "error" dfs with
       | some (.vObj efs) =>
         let deepResult := parseNestedError efs provider
         if deepResult.isRotationTriggering then deepResult else defaultResult message
       | _ => defaultResult message)
    | _ => defaultResult message
termination_by sizeOf fs
decreasing_by
  have key : ∀ (name : String) (l : List (String × JsValue)) (v : JsValue),
      alookup name l = some v → sizeOf v < sizeOf l := by
    intro name l
    induction l with
    | nil => intro v hv; simp [alookup] at hv
    | cons e rest ih =>
      obtain ⟨k, w⟩ := e
      intro v hv
      by_cases hk : k = name
      · simp [alookup, hk] at hv
        subst hv
        simp
        omega
      · simp [alookup, hk] at hv
        have := ih v hv
        simp
        omega
  have hd := key _ _ _ h1
  have he := key _ _ _ h2
  simp at hd he
  omega

/-- Status test `err.status === 429 || err.status === 529` (strict
equality against a numeric status). -/
def statusTest (fs : List (String × JsValue)) : Bool :=
  match alookup "status" fs with
  | some (.vNum n) => n == 429 || n == 529
  | _ => false

/-- Strict test `err.status === 529`. -/
def statusIs529 (fs : List (String × JsValue)) : Bool :=
  match alookup "status" fs with
  | some (.vNum n) => n == 529
  | _ => false

/-- Lowercased nested-error field coercion
`String(nestedErr?.field ?? "").toLowerCase()`. -/
def nestedFieldLower (fs : List (String × JsValue)) (name : String) : String :=
  lowerStr (strOrEmpty (objField (alookup "error" fs) name))

/-- The 429/529 branch of `ErrorParser.parseError`. -/
def statusBranch (fs : List (String × JsValue)) : ParsedError :=
  let message := extractMessage fs
  let nestedStatus := nestedFieldLower fs "status"
  let nestedCode := nestedFieldLower fs "code"
  let nestedMessage := nestedFieldLower fs "message"
  let isQuotaError :=
    nestedStatus == "resource_exhausted" ||
    jsIncludes (lowerStr message) "exhausted" ||
    jsIncludes nestedCode "insufficient" ||
    jsIncludes nestedMessage "insufficient"
  let provider := detectProvider fs
  { isRotationTriggering := true
    errorType := if statusIs529 fs || isQuotaError then .quota else .rate_limit
    provider := if provider = .unknown then detectProviderFromErrorType fs else provider
    message := message }

/-- Object branch of `ErrorParser.parseError`. -/
def parseObj (fs : List (String × JsValue)) : ParsedError :=
  let provider := detectProvider fs
  if statusTest fs then statusBranch fs
  else
    let nestedResult :=
      match alookup "error" fs with
      | some (.vObj nfs) =>
        let result := parseNestedError nfs provider
        if result.isRotationTriggering then some result else none
      | _ => none
    match nestedResult with
    | some r => r
    | none =>
      let message := extractMessage fs
      if containsRotationKeywords message then
        { isRotationTriggering := true
          errorType := determineErrorType message fs
          provider := provider
          message := message }
      else
        { isRotationTriggering := false, errorType := .other, provider := provider
          message := message }

/-- `String(error ?? "")` applied to a non-object, non-string input
(`null` coalesces to the empty string). -/
def coerceToString : JsValue → String
  | .vNull => ""
  | v => jsToString v

/-- `ErrorParser.parseError`: total classifier over arbitrary values. -/
def parseError : JsValue → ParsedError
  | .vStr s => parseFromString s .unknown
  | .vObj fs => parseObj fs
  | v => defaultResult (coerceToString v)

/-! ## Auxiliary predicates and lemmas -/

/-- A model that is tracked and marked depleted. -/
def trackedDepleted (state : List (String × ModelRotationState)) (m : String) : Bool :=
  match alookup m state with
  | some st => st.depleted
  | none => false

/-- A model that is tracked, depleted and in an unexpired cooldown. -/
def trackedDepletedUnexpired (now : Nat) (state : List (String × ModelRotationState))
    (m : String) : Bool :=
  match alookup m state with
  | some st => st.depleted && stInCooldown now st
  | none => false

/-- The depletion/cooldown coupling invariant on one record: a record
that is not depleted must not be in an unexpired cooldown. -/
def invAt (now : Nat) (st : ModelRotationState) : Prop :=
  st.depleted = false → stInCooldown now st = false

/-- The coupling invariant over every tracked record of the store. -/
def storeInv (now : Nat) (store : Store) : Prop :=
  ∀ e ∈ store.state, invAt now e.2

instance (now : Nat) (st : ModelRotationState) : Decidable (invAt now st) :=
  inferInstanceAs (Decidable (st.depleted = false → stInCooldown now st = false))

instance (now : Nat) (store : Store) : Decidable (storeInv now store) :=
  inferInstanceAs (Decidable (∀ e ∈ store.state, invAt now e.2))

/-- Quota/RateLimit rule of claim C5 as originally stated: `Quota` when
the status is 529, or the nested status equals `resource_exhausted`, or
a nested code contains `insufficient`, or the message contains
`exhausted`; `RateLimit` otherwise. -/
def c5ClaimKind (fs : List (String × JsValue)) : ErrorType :=
  if statusIs529 fs
      || nestedFieldLower fs "status" == "resource_exhausted"
      || jsIncludes (nestedFieldLower fs "code") "insufficient"
      || jsIncludes (lowerStr (extractMessage fs)) "exhausted"
  then .quota else .rate_limit

/-- Quota/RateLimit rule of claim C5 as amended: additionally `Quota`
when the nested message contains `insufficient`. -/
def c5AmendedKind (fs : List (String × JsValue)) : ErrorType :=
  if statusIs529 fs
      || nestedFieldLower fs "status" == "resource_exhausted"
      || jsIncludes (nestedFieldLower fs "code") "insufficient"
      || jsIncludes (lowerStr (extractMessage fs)) "exhausted"
      || jsIncludes (nestedFieldLower fs "message") "insufficient"
  then .quota else .rate_limit

theorem alookup_mem {α : Type} {m : String} {l : List (String × α)} {v : α}
    (h : alookup m l = some v) : (m, v) ∈ l := by
  induction l with
  | nil => simp [alookup] at h
  | cons e rest ih =>
    obtain ⟨k, w⟩ := e
    by_cases hk : k = m
    · subst hk
      simp [alookup] at h
      subst h
      exact List.mem_cons_self _ _
    · simp [alookup, hk] at h
      exact List.mem_cons_of_mem _ (ih h)

theorem mem_setEntry {α : Type} {e : String × α} {m : String} {v : α}
    {l : List (String × α)} (h : e ∈ setEntry m v l) : e = (m, v) ∨ e ∈ l := by
  induction l with
  | nil => simp [setEntry] at h; simp [h]
  | cons p rest ih =>
    obtain ⟨k, w⟩ := p
    by_cases hk : k = m
    · simp [setEntry, hk] at h
      rcases h with h | h
      · exact Or.inl h
      · exact Or.inr (List.mem_cons_of_mem _ h)
    · simp [setEntry, hk] at h
      rcases h with h | h
      · exact Or.inr (by simp [h])
      · rcases ih h with h' | h'
        · exact Or.inl h'
        · exact Or.inr (List.mem_cons_of_mem _ h')

theorem alookup_eq_none_of_not_mem {α : Type} {m : String} {l : List (String × α)}
    (h : m ∉ l.map Prod.fst) : alookup m l = none := by
  induction l with
  | nil => rfl
  | cons p rest ih =>
    obtain ⟨k, w⟩ := p
    have h1 : ¬ k = m := fun hkm => h (by simp [hkm])
    have h2 : m ∉ rest.map Prod.fst := fun hmem => h (by simp [hmem])
    simp [alookup, h1]
    exact ih h2

theorem alookup_filter_of_none {α : Type} (q : α → Bool) {m : String}
    {l : List (String × α)} (h : alookup m l = none) :
    alookup m (l.filter (fun e => q e.2)) = none := by
  induction l with
  | nil => rfl
  | cons p rest ih =>
    obtain ⟨k, w⟩ := p
    by_cases hk : k = m
    · simp [alookup, hk] at h
    · simp [alookup, hk] at h
      by_cases hq : q w
      · simp [List.filter_cons, hq, alookup, hk]
        exact ih h
      · simp [List.filter_cons, hq]
        exact ih h

theorem alookup_filter_keep {α : Type} (q : α → Bool) {m : String}
    {l : List (String × α)} {v : α} (h : alookup m l = some v) (hq : q v = true) :
    alookup m (l.filter (fun e => q e.2)) = some v := by
  induction l with
  | nil => simp [alookup] at h
  | cons p rest ih =>
    obtain ⟨k, w⟩ := p
    by_cases hk : k = m
    · simp [alookup, hk] at h
      subst h
      simp [List.filter_cons, hq, alookup, hk]
    · simp [alookup, hk] at h
      by_cases hqw : q w
      · simp [List.filter_cons, hqw, alookup, hk]
        exact ih h
      · simp [List.filter_cons, hqw]
        exact ih h

theorem alookup_filter_nodup {α : Type} (q : α → Bool) {l : List (String × α)}
    (hnd : (l.map Prod.fst).Nodup) (m : String) :
    alookup m (l.filter (fun e => q e.2)) =
      match alookup m l with
      | some v => if q v then some v else none
      | none => none := by
  induction l with
  | nil => rfl
  | cons p rest ih =>
    obtain ⟨k, w⟩ := p
    simp only [List.map_cons, List.nodup_cons] at hnd
    by_cases hk : k = m
    · subst hk
      by_cases hq : q w
      · simp [List.filter_cons, hq, alookup]
      · simp [List.filter_cons, hq, alookup]
        exact alookup_filter_of_none q (alookup_eq_none_of_not_mem hnd.1)
    · by_cases hq : q w
      · simp [List.filter_cons, hq, alookup, hk]
        exact ih hnd.2
      · simp [List.filter_cons, hq, alookup, hk]
        exact ih hnd.2

theorem length_filter_lt_iff {α : Type} (p : α → Bool) (l : List α) :
    (l.filter p).length < l.length ↔ ∃ e ∈ l, p e = false := by
  induction l with
  | nil => simp
  | cons a rest ih =>
    by_cases hp : p a
    · simp [List.filter_cons, hp, Nat.succ_lt_succ_iff, ih]
    · simp only [List.filter_cons, hp, Bool.false_eq_true, if_false]
      constructor
      · intro _
        exact ⟨a, List.mem_cons_self _ _, by simpa using hp⟩
      · intro _
        exact Nat.lt_succ_of_le (List.length_filter_le _ _)

/-- Pruning never removes a record whose `inCooldown` flag is set. -/
theorem prune_keeps_inCooldown {now d : Nat} {store : Store} {m : String}
    {st : ModelRotationState} (h : alookup m store.state = some st)
    (hc : st.usage.inCooldown = true) :
    alookup m (pruneOldModels now d store).state = some st := by
  show alookup m (store.state.filter
    (fun e => !pruneCond (now - d * 86400000) e.2)) = some st
  refine alookup_filter_keep (fun s => !pruneCond (now - d * 86400000) s) h ?_
  simp [pruneCond, hc]

theorem findScan_none {now : Nat} {state : List (String × ModelRotationState)}
    {ms : List String} (h : ∀ m ∈ ms, trackedDepleted state m = true) :
    findScan now state ms = none := by
  induction ms with
  | nil => rfl
  | cons m rest ih =>
    have hm := h m (List.mem_cons_self _ _)
    unfold trackedDepleted at hm
    unfold findScan
    cases hl : alookup m state with
    | none => rw [hl] at hm; simp at hm
    | some st =>
      rw [hl] at hm
      simp at hm
      show (if (!st.depleted && !isInCooldown now m state) = true then some m
        else findScan now state rest) = none
      rw [if_neg (by simp [hm])]
      exact ih (fun x hx => h x (List.mem_cons_of_mem _ hx))

theorem selectScan_none {now : Nat} {store : Store} {ms : List String}
    (h : ∀ m ∈ ms, trackedDepletedUnexpired now store.state m = true) :
    selectScan now store ms = none := by
  induction ms with
  | nil => rfl
  | cons m rest ih =>
    have hm := h m (List.mem_cons_self _ _)
    unfold trackedDepletedUnexpired at hm
    unfold selectScan
    cases hl : alookup m store.state with
    | none => rw [hl] at hm; simp at hm
    | some st =>
      rw [hl] at hm
      simp only [Bool.and_eq_true] at hm
      obtain ⟨hdep, hcool⟩ := hm
      unfold stInCooldown at hcool
      simp only [Bool.and_eq_true] at hcool
      obtain ⟨hin, huntil⟩ := hcool
      cases hu : st.usage.cooldownUntil with
      | none => rw [hu] at huntil; simp at huntil
      | some t =>
        rw [hu] at huntil
        simp at huntil
        have hle : decide (t ≤ now) = false := by simp; omega
        simp [hu, hin, hle, hdep]
        exact ih (fun x hx => h x (List.mem_cons_of_mem _ hx))

theorem markAllDepleted_id {cfg : RotationConfig} {now : Nat} {ms : List String}
    {s : Store} (h : ∀ m ∈ ms, trackedDepleted s.state m = true) :
    markAllDepleted cfg now ms s = s := by
  induction ms with
  | nil => rfl
  | cons m rest ih =>
    have hm := h m (List.mem_cons_self _ _)
    unfold trackedDepleted at hm
    cases hl : alookup m s.state with
    | none => rw [hl] at hm; simp at hm
    | some st =>
      rw [hl] at hm
      simp at hm
      have hstep : (match alookup m s.state with
          | some st => if !st.depleted then markDepleted now m cfg.cooldownMs s else s
          | none => s) = s := by
        rw [hl]
        show (if (!st.depleted) = true then markDepleted now m cfg.cooldownMs s else s) = s
        rw [if_neg (by simp [hm])]
      unfold markAllDepleted
      rw [hstep]
      exact ih (fun x hx => h x (List.mem_cons_of_mem _ hx))

theorem trackedDepleted_eq {state : List (String × ModelRotationState)} {m : String}
    {st : ModelRotationState} (hl : alookup m state = some st) :
    trackedDepleted state m = st.depleted := by
  unfold trackedDepleted
  rw [hl]

theorem trackedDepletedUnexpired_eq {now : Nat} {state : List (String × ModelRotationState)}
    {m : String} {st : ModelRotationState} (hl : alookup m state = some st) :
    trackedDepletedUnexpired now state m = (st.depleted && stInCooldown now st) := by
  unfold trackedDepletedUnexpired
  rw [hl]

theorem trackedDepletedUnexpired_spec {now : Nat} {state : List (String × ModelRotationState)}
    {m : String} (h : trackedDepletedUnexpired now state m = true) :
    ∃ st, alookup m state = some st ∧ st.depleted = true ∧ st.usage.inCooldown = true ∧
      stInCooldown now st = true := by
  unfold trackedDepletedUnexpired at h
  cases hl : alookup m state with
  | none => rw [hl] at h; simp at h
  | some st =>
    rw [hl] at h
    simp only [Bool.and_eq_true] at h
    obtain ⟨hd, hc⟩ := h
    have hc' := hc
    simp only [stInCooldown, Bool.and_eq_true] at hc'
    exact ⟨st, rfl, hd, hc'.1, hc⟩

/-- Pruning preserves tracked/depleted/unexpired-cooldown members. -/
theorem prune_preserves_tdu {now d : Nat} {store : Store} {m : String}
    (h : trackedDepletedUnexpired now store.state m = true) :
    trackedDepletedUnexpired now (pruneOldModels now d store).state m = true := by
  obtain ⟨st, hl, hd, hin, hc⟩ := trackedDepletedUnexpired_spec h
  rw [trackedDepletedUnexpired_eq (prune_keeps_inCooldown hl hin), hd, hc]
  rfl

/-- The invariant holds on a freshly initialized zero record. -/
theorem invAt_createEmpty (now t : Nat) : invAt now (createEmptyModelState t) := by
  intro _
  rfl

/-- Generic preservation of the store invariant through
`updateModelState`, for updaters that preserve the per-record
invariant. -/
theorem storeInv_update (now : Nat) (m : String)
    (f : ModelRotationState → ModelRotationState) (store : Store)
    (h : storeInv now store) (hf : ∀ st, invAt now st → invAt now (f st)) :
    storeInv now (updateModelState now m f store) := by
  intro e he
  have he' : e ∈ setEntry m
      (f ((alookup m store.state).getD (createEmptyModelState now))) store.state := he
  rcases mem_setEntry he' with heq | hmem
  · rw [heq]
    apply hf
    cases halo : alookup m store.state with
    | some st => exact h _ (alookup_mem halo)
    | none => exact invAt_createEmpty now now
  · exact h e hmem

/-! ## Claim theorems -/

/-- C1: evaluates the code at the failing input.  The claim (and the
repository's own `rotation-engine.test.ts`) states that rotating away
from `b` in pool `[a, b, c]` with all resources available yields
next resource `c` (scan starts after the current resource).  The shipped
`findNextAvailableModel` takes no current-resource argument and scans
from the head of the pool, so rotating away from `b` on a fresh store
yields `a`. -/
theorem c1_rotation_scan_restarts_at_head :
    (rotateOnError ⟨true, .calls, 10, 60000⟩ 10000 "b" ["a", "b", "c"] ⟨[], 0⟩).1.nextModel
      = some "a" := by
  decide

/-- C2: evaluates the code at the failing input.  The claim (and the
repository's own `rotation-engine.test.ts`) states that when the
availability-scan path re-selects a resource whose cooldown has elapsed
(stored with `callCount = 10`, `tokenCount = 50000`, `inCooldown = true`,
`depleted = true`), the stored state afterwards has `callCount = 0` and
no `tokenCount`.  The shipped `selectAvailableModel` reactivates through
`markAvailable`, which clears only the cooldown/depletion flags: the
counters remain `10` and `50000`. -/
theorem c2_reactivation_keeps_counters :
    (selectAvailableModel 10000 ["b", "c"]
      ⟨[("b", ⟨⟨10, some 50000, 9000, true, some 9000⟩, true⟩)], 0⟩).1 = some "b" ∧
    alookup "b" (selectAvailableModel 10000 ["b", "c"]
      ⟨[("b", ⟨⟨10, some 50000, 9000, true, some 9000⟩, true⟩)], 0⟩).2.state
      = some ⟨⟨10, some 50000, 9000, false, none⟩, false⟩ := by
  exact ⟨by decide, by decide⟩

/-- C3: evaluates the code at the failing input.  The claim states that
`recordUsage(resource, t)` with rotation enabled makes the stored
`tokenCount` grow by `t`.  The engine's `recordUsage` is declared with
only the model parameter and calls `incrementUsage` without a token
delta (the `tokensUsed` argument passed by `hooks.ts` is dropped), so
the token counter stays absent even though the store's `incrementUsage`
does support a delta; the disabled case is a no-op as claimed. -/
theorem c3_record_usage_drops_tokens :
    alookup "m1" (recordUsage ⟨true, .calls, 10, 60000⟩ 500 "m1" ⟨[], 0⟩).state
      = some ⟨⟨1, none, 500, false, none⟩, false⟩ ∧
    alookup "m1" (incrementUsage 500 "m1" (some 5) ⟨[], 0⟩).state
      = some ⟨⟨1, some 5, 500, false, none⟩, false⟩ ∧
    recordUsage ⟨false, .calls, 10, 60000⟩ 500 "m1" ⟨[], 0⟩ = ⟨[], 0⟩ := by
  exact ⟨by decide, by decide, by decide⟩

/-- C7: with rotation disabled or a pool of at most one member, both
rotation entry points return `rotated = false`, no next resource,
`allDepleted = false`, for every store state, and leave the store
untouched. -/
theorem c7_disabled_or_trivial_pool_noop (cfg : RotationConfig) (now : Nat)
    (currentModel : String) (models : List String) (store : Store)
    (h : cfg.enabled = false ∨ models.length ≤ 1) :
    shouldRotate cfg now currentModel models store
      = ({ rotated := false, nextModel := none, reason := none, allDepleted := false }, store) ∧
    rotateOnError cfg now currentModel models store
      = ({ rotated := false, nextModel := none, reason := none, allDepleted := false }, store) := by
  unfold shouldRotate rotateOnError
  rw [if_pos h, if_pos h]
  exact ⟨rfl, rfl⟩

/-- C4 (amended): `incrementUsage`, `markDepleted` and `markAvailable`
preserve the coupling invariant — no record ends up with
`depleted = false` while in an unexpired cooldown.  (The claim as
stated also includes `resetUsage`, which violates the invariant; see
the counterexample.) -/
theorem c4_transition_ops_preserve_invariant (now : Nat) (store : Store) (m : String)
    (tok : Option Nat) (cd : Nat) (h : storeInv now store) :
    storeInv now (incrementUsage now m tok store) ∧
    storeInv now (markDepleted now m cd store) ∧
    storeInv now (markAvailable now m store) := by
  refine ⟨?_, ?_, ?_⟩
  · unfold incrementUsage
    refine storeInv_update now m _ store h ?_
    intro st hst hd
    exact hst hd
  · unfold markDepleted
    refine storeInv_update now m _ store h ?_
    intro st _ hd
    exact Bool.noConfusion hd
  · unfold markAvailable
    refine storeInv_update now m _ store h ?_
    intro st _ _
    rfl

/-- Witness for C4 at a concrete invariant-satisfying store. -/
theorem c4_transition_ops_preserve_invariant_witness :
    storeInv 1000 ⟨[("a", ⟨⟨2, none, 100, false, none⟩, false⟩)], 0⟩ ∧
    storeInv 1000
      (incrementUsage 1000 "a" (some 3) ⟨[("a", ⟨⟨2, none, 100, false, none⟩, false⟩)], 0⟩) := by
  exact ⟨by decide,
    (c4_transition_ops_preserve_invariant 1000
      ⟨[("a", ⟨⟨2, none, 100, false, none⟩, false⟩)], 0⟩ "a" (some 3) 500 (by decide)).1⟩

/-- Counterexample for C4 as stated: `resetUsage` applied to a depleted
record in an unexpired cooldown clears `depleted` but leaves the
cooldown flags, producing `depleted = false`, `inCooldown = true`,
`cooldownUntil` in the future. -/
theorem c4_reset_usage_breaks_invariant :
    storeInv 1000 ⟨[("a", ⟨⟨10, some 5, 100, true, some 2000⟩, true⟩)], 0⟩ ∧
    ¬ storeInv 1000
        (resetUsage 1000 "a" ⟨[("a", ⟨⟨10, some 5, 100, true, some 2000⟩, true⟩)], 0⟩) := by
  constructor
  · decide
  · intro hinv
    have := hinv ("a", ⟨⟨0, none, 100, true, some 2000⟩, false⟩) (by decide)
    have hbad := this (by decide)
    simp [stInCooldown] at hbad

/-- C6: when every pool member is tracked, depleted and in an unexpired
cooldown, the shared rotation algorithm reports
`rotated = true, nextResource = none, allDepleted = true` and every
pool member remains marked depleted afterwards. -/
theorem c6_depletion_totality (cfg : RotationConfig) (now : Nat) (currentModel : String)
    (models : List String) (reason : String) (store : Store)
    (h : ∀ m ∈ models, trackedDepletedUnexpired now store.state m = true) :
    (rotate cfg now currentModel models reason store).1
      = { rotated := true, nextModel := none, reason := some reason, allDepleted := true } ∧
    ∀ m ∈ models,
      trackedDepleted (rotate cfg now currentModel models reason store).2.state m = true := by
  have hpres : ∀ m ∈ models,
      trackedDepletedUnexpired now (pruneOldModels now 30 store).state m = true :=
    fun m hm => prune_preserves_tdu (h m hm)
  have hdep : ∀ m ∈ models, trackedDepleted (pruneOldModels now 30 store).state m = true := by
    intro m hm
    obtain ⟨st, hl, hd, _, _⟩ := trackedDepletedUnexpired_spec (hpres m hm)
    rw [trackedDepleted_eq hl]
    exact hd
  have hscan : findScan now (pruneOldModels now 30 store).state models = none :=
    findScan_none hdep
  have hrot : rotate cfg now currentModel models reason store
      = ({ rotated := true, nextModel := none, reason := some reason, allDepleted := true },
          pruneOldModels now 30 store) := by
    unfold rotate findNextAvailableModel
    simp only [hscan]
    rw [markAllDepleted_id hdep]
  rw [hrot]
  exact ⟨rfl, hdep⟩

/-- Witness for C6 at a concrete fully depleted two-model store. -/
theorem c6_depletion_totality_witness :
    (∀ m ∈ ["a", "b"], trackedDepletedUnexpired 1000
      (⟨[("a", ⟨⟨1, none, 500, true, some 2000⟩, true⟩),
         ("b", ⟨⟨1, none, 500, true, some 2000⟩, true⟩)], 0⟩ : Store).state m = true) ∧
    (rotate ⟨true, .calls, 10, 60000⟩ 1000 "a" ["a", "b"] "API quota/rate limit error"
      ⟨[("a", ⟨⟨1, none, 500, true, some 2000⟩, true⟩),
        ("b", ⟨⟨1, none, 500, true, some 2000⟩, true⟩)], 0⟩).1
      = { rotated := true, nextModel := none,
          reason := some "API quota/rate limit error", allDepleted := true } := by
  exact ⟨by decide,
    (c6_depletion_totality ⟨true, .calls, 10, 60000⟩ 1000 "a" ["a", "b"]
      "API quota/rate limit error"
      ⟨[("a", ⟨⟨1, none, 500, true, some 2000⟩, true⟩),
        ("b", ⟨⟨1, none, 500, true, some 2000⟩, true⟩)], 0⟩ (by decide)).1⟩

/-- C10 (amended): the standalone availability selection never returns
absent for a non-empty list; a single-element list is returned
immediately with the store untouched; and when every listed model is
tracked, depleted and in an unexpired cooldown, it falls back to the
first element.  (The claim as stated extends the fallback to every
"depleted or in active cooldown" pool; a depleted member whose cooldown
timestamp has expired is instead reactivated and returned — see the
counterexample.) -/
theorem c10_select_available_model :
    (∀ (now : Nat) (m : String) (store : Store),
      selectAvailableModel now [m] store = (some m, store)) ∧
    (∀ (now : Nat) (models : List String) (store : Store), models ≠ [] →
      (selectAvailableModel now models store).1.isSome = true) ∧
    (∀ (now : Nat) (m : String) (ms : List String) (store : Store),
      (∀ x ∈ m :: ms, trackedDepletedUnexpired now store.state x = true) →
      (selectAvailableModel now (m :: ms) store).1 = some m) := by
  refine ⟨fun now m store => rfl, ?_, ?_⟩
  · intro now models store hne
    cases models with
    | nil => exact absurd rfl hne
    | cons m1 tl =>
      cases tl with
      | nil => rfl
      | cons m2 rest =>
        unfold selectAvailableModel
        cases hs : selectScan now (pruneOldModels now 30 store) (m1 :: m2 :: rest) with
        | none => simp [hs]
        | some p => simp [hs]
  · intro now m ms store h
    cases ms with
    | nil => rfl
    | cons m2 rest =>
      have hpres : ∀ x ∈ m :: m2 :: rest,
          trackedDepletedUnexpired now (pruneOldModels now 30 store).state x = true :=
        fun x hx => prune_preserves_tdu (h x hx)
      have hs : selectScan now (pruneOldModels now 30 store) (m :: m2 :: rest) = none :=
        selectScan_none hpres
      unfold selectAvailableModel
      simp [hs]

/-- Witness for C10 at a concrete fully depleted two-model store. -/
theorem c10_select_available_model_witness :
    (∀ x ∈ ["a", "b"], trackedDepletedUnexpired 1000
      (⟨[("a", ⟨⟨1, none, 500, true, some 2000⟩, true⟩),
         ("b", ⟨⟨1, none, 500, true, some 2000⟩, true⟩)], 3⟩ : Store).state x = true) ∧
    (selectAvailableModel 1000 ["a", "b"]
      ⟨[("a", ⟨⟨1, none, 500, true, some 2000⟩, true⟩),
        ("b", ⟨⟨1, none, 500, true, some 2000⟩, true⟩)], 3⟩).1 = some "a" := by
  exact ⟨by decide,
    c10_select_available_model.2.2 1000 "a" ["b"]
      ⟨[("a", ⟨⟨1, none, 500, true, some 2000⟩, true⟩),
        ("b", ⟨⟨1, none, 500, true, some 2000⟩, true⟩)], 3⟩ (by decide)⟩

/-- Counterexample for C10 as stated: with pool `[a, b]`, both members
tracked and depleted (hence unavailable in the claim's sense), but `b`
holding an expired cooldown timestamp, the selection reactivates and
returns `b` instead of falling back to the first element `a`. -/
theorem c10_expired_cooldown_reactivated_not_first :
    (∀ x ∈ ["a", "b"], trackedDepleted
      (⟨[("a", ⟨⟨5, none, 9900, true, some 11000⟩, true⟩),
         ("b", ⟨⟨5, none, 9900, true, some 9000⟩, true⟩)], 0⟩ : Store).state x = true) ∧
    (selectAvailableModel 10000 ["a", "b"]
      ⟨[("a", ⟨⟨5, none, 9900, true, some 11000⟩, true⟩),
        ("b", ⟨⟨5, none, 9900, true, some 9000⟩, true⟩)], 0⟩).1 = some "b" ∧
    (selectAvailableModel 10000 ["a", "b"]
      ⟨[("a", ⟨⟨5, none, 9900, true, some 11000⟩, true⟩),
        ("b", ⟨⟨5, none, 9900, true, some 9000⟩, true⟩)], 0⟩).1 ≠ some "a" := by
  exact ⟨by decide, by decide, by decide⟩

/-- C9: pruning removes exactly the tracked entries that are older than
the cutoff, have the `inCooldown` flag clear, and have a call count of
exactly zero; and the store is persisted (the persist counter advances)
only when at least one entry was removed. -/
theorem c9_prune_stale_exact (now maxAge : Nat) (store : Store)
    (hnd : (store.state.map Prod.fst).Nodup) :
    (∀ (m : String) (st : ModelRotationState),
      alookup m (pruneOldModels now maxAge store).state = some st ↔
        alookup m store.state = some st ∧
          ¬(st.usage.lastUsedAt < now - maxAge * 86400000 ∧
            st.usage.inCooldown = false ∧ st.usage.callCount = 0)) ∧
    ((pruneOldModels now maxAge store).persists = store.persists ↔
      ∀ e ∈ store.state,
        ¬(e.2.usage.lastUsedAt < now - maxAge * 86400000 ∧
          e.2.usage.inCooldown = false ∧ e.2.usage.callCount = 0)) := by
  have hpc : ∀ st : ModelRotationState,
      pruneCond (now - maxAge * 86400000) st = true ↔
        (st.usage.lastUsedAt < now - maxAge * 86400000 ∧
          st.usage.inCooldown = false ∧ st.usage.callCount = 0) := by
    intro st
    simp [pruneCond, Bool.and_eq_true, and_assoc]
  constructor
  · intro m st
    have hlf := alookup_filter_nodup (fun s => !pruneCond (now - maxAge * 86400000) s) hnd m
    have hgoal : alookup m (pruneOldModels now maxAge store).state
        = alookup m (store.state.filter (fun e => !pruneCond (now - maxAge * 86400000) e.2)) :=
      rfl
    rw [hgoal, hlf]
    cases halo : alookup m store.state with
    | none => simp
    | some v =>
      show (if (!pruneCond (now - maxAge * 86400000) v) = true then some v else none)
          = some st ↔ _
      by_cases hq : pruneCond (now - maxAge * 86400000) v = true
      · rw [if_neg (by simp [hq])]
        constructor
        · intro hno
          exact absurd hno (by simp)
        · rintro ⟨hvs, hns⟩
          injection hvs with hv
          subst hv
          exact absurd ((hpc v).mp hq) hns
      · rw [if_pos (by simp [hq])]
        constructor
        · intro hv
          refine ⟨hv, ?_⟩
          injection hv with hv'
          subst hv'
          intro hP
          exact hq ((hpc v).mpr hP)
        · rintro ⟨hv, _⟩
          exact hv
  · have hlen := length_filter_lt_iff
      (fun e => !pruneCond (now - maxAge * 86400000) e.2) store.state
    show (if (store.state.filter
        (fun e => !pruneCond (now - maxAge * 86400000) e.2)).length < store.state.length
      then store.persists + 1 else store.persists) = store.persists ↔ _
    by_cases hlt : (store.state.filter
        (fun e => !pruneCond (now - maxAge * 86400000) e.2)).length < store.state.length
    · rw [if_pos hlt]
      constructor
      · intro habs
        exact absurd habs (by omega)
      · intro hall
        exfalso
        obtain ⟨e, hel, hpe⟩ := hlen.mp hlt
        refine hall e hel ((hpc e.2).mp ?_)
        simpa using hpe
    · rw [if_neg hlt]
      constructor
      · intro _ e hel hP
        refine hlt (hlen.mpr ⟨e, hel, ?_⟩)
        simp [(hpc e.2).mpr hP]
      · intro _
        rfl

/-- Witness for C9 at a concrete two-entry store: the old, never-used,
not-cooling entry is removed. -/
theorem c9_prune_stale_exact_witness :
    (((⟨[("x", ⟨⟨0, none, 100, false, none⟩, false⟩),
        ("y", ⟨⟨3, none, 100, false, none⟩, false⟩)], 7⟩ : Store).state.map
          Prod.fst).Nodup) ∧
    (alookup "x" (pruneOldModels 2592000100 1
        ⟨[("x", ⟨⟨0, none, 100, false, none⟩, false⟩),
          ("y", ⟨⟨3, none, 100, false, none⟩, false⟩)], 7⟩).state
      = some (⟨⟨0, none, 100, false, none⟩, false⟩ : ModelRotationState) ↔
      alookup "x" (⟨[("x", ⟨⟨0, none, 100, false, none⟩, false⟩),
          ("y", ⟨⟨3, none, 100, false, none⟩, false⟩)], 7⟩ : Store).state
        = some (⟨⟨0, none, 100, false, none⟩, false⟩ : ModelRotationState) ∧
        ¬(((⟨⟨0, none, 100, false, none⟩, false⟩ :
            ModelRotationState)).usage.lastUsedAt < 2592000100 - 1 * 86400000 ∧
          ((⟨⟨0, none, 100, false, none⟩, false⟩ :
            ModelRotationState)).usage.inCooldown = false ∧
          ((⟨⟨0, none, 100, false, none⟩, false⟩ :
            ModelRotationState)).usage.callCount = 0)) := by
  exact ⟨by decide,
    (c9_prune_stale_exact 2592000100 1
      ⟨[("x", ⟨⟨0, none, 100, false, none⟩, false⟩),
        ("y", ⟨⟨3, none, 100, false, none⟩, false⟩)], 7⟩ (by decide)).1
      "x" ⟨⟨0, none, 100, false, none⟩, false⟩⟩

/-- C5 (amended): every object with an explicit numeric status of 429
or 529 triggers rotation, its message is the extracted message, and its
kind follows the amended quota rule (the original claim omitted the
nested-message-contains-insufficient disjunct); the two example
payloads classify exactly as stated. -/
theorem c5_status_code_classification :
    (∀ fs : List (String × JsValue), statusTest fs = true →
      (parseError (.vObj fs)).isRotationTriggering = true ∧
      (parseError (.vObj fs)).message = extractMessage fs ∧
      (parseError (.vObj fs)).errorType = c5AmendedKind fs) ∧
    parseError (.vObj [("status", .vNum 429),
        ("error", .vObj [("type", .vStr "rate_limit_error"),
          ("message", .vStr "Rate limit exceeded")])])
      = { isRotationTriggering := true, errorType := .rate_limit, provider := .anthropic,
          message := "Rate limit exceeded" } ∧
    parseError (.vObj [("status", .vNum 529),
        ("error", .vObj [("type", .vStr "overloaded_error"),
          ("message", .vStr "Server busy")])])
      = { isRotationTriggering := true, errorType := .quota, provider := .anthropic,
          message := "Server busy" } := by
  refine ⟨?_, by decide, by decide⟩
  intro fs h
  have hobj : parseError (.vObj fs) = statusBranch fs := by
    show parseObj fs = statusBranch fs
    unfold parseObj
    rw [if_pos h]
  rw [hobj]
  refine ⟨rfl, rfl, ?_⟩
  have hb : ∀ e a b c d : Bool, (e || (a || b || c || d)) = (e || a || c || b || d) := by
    decide
  have hbr : (statusBranch fs).errorType =
      (if statusIs529 fs || (nestedFieldLower fs "status" == "resource_exhausted" ||
          jsIncludes (lowerStr (extractMessage fs)) "exhausted" ||
          jsIncludes (nestedFieldLower fs "code") "insufficient" ||
          jsIncludes (nestedFieldLower fs "message") "insufficient")
        then ErrorType.quota else ErrorType.rate_limit) := rfl
  rw [hbr, hb (statusIs529 fs) (nestedFieldLower fs "status" == "resource_exhausted")
    (jsIncludes (lowerStr (extractMessage fs)) "exhausted")
    (jsIncludes (nestedFieldLower fs "code") "insufficient")
    (jsIncludes (nestedFieldLower fs "message") "insufficient")]
  rfl

/-- Witness for C5 at the concrete payload carrying only a 429
status. -/
theorem c5_status_code_classification_witness :
    statusTest [("status", JsValue.vNum 429)] = true ∧
    (parseError (.vObj [("status", JsValue.vNum 429)])).isRotationTriggering = true := by
  exact ⟨by decide,
    (c5_status_code_classification.1 [("status", JsValue.vNum 429)] (by decide)).1⟩

/-- Counterexample for C5 as stated: the payload
`{status: 429, error: {message: "insufficient funds"}}` carries no
nested status, no nested code, and no "exhausted" in its message, so
the claim's rule says `RateLimit`; the code also tests the nested
message for "insufficient" and classifies it `Quota`. -/
theorem c5_nested_insufficient_message_quota :
    (parseError (.vObj [("status", .vNum 429),
        ("error", .vObj [("message", .vStr "insufficient funds")])])).errorType = .quota ∧
    c5ClaimKind [("status", .vNum 429),
        ("error", .vObj [("message", .vStr "insufficient funds")])] = .rate_limit := by
  exact ⟨by decide, by decide⟩

/-- C8: the classifier is a total function; `null`, numbers, booleans
and keyword-free strings degrade to the non-triggering `Other` result
carrying the JavaScript string form of the input, and the example
payload `{error: {message: "Internal server error"}}` classifies as
non-triggering `Other`. -/
theorem c8_classifier_totality :
    parseError .vNull = ⟨false, .other, .unknown, ""⟩ ∧
    (∀ n : Int, parseError (.vNum n) = ⟨false, .other, .unknown, toString n⟩) ∧
    (∀ b : Bool, parseError (.vBool b) = ⟨false, .other, .unknown, toString b⟩) ∧
    (∀ s : String, containsRotationKeywords s = false →
      parseError (.vStr s) = ⟨false, .other, .unknown, s⟩) ∧
    parseError (.vObj [("error", .vObj [("message", .vStr "Internal server error")])])
      = ⟨false, .other, .unknown, "Internal server error"⟩ := by
  refine ⟨rfl, fun n => rfl, fun b => rfl, ?_, ?_⟩
  · intro s hs
    show parseFromString s .unknown = _
    unfold parseFromString
    rw [if_neg (by simp [hs])]
    rfl
  · have hn : parseNestedError [("message", JsValue.vStr "Internal server error")]
        (detectProvider [("error", JsValue.vObj [("message", JsValue.vStr "Internal server error")])])
        = defaultResult "Internal server error" := by
      rw [parseNestedError]
      decide
    show parseObj [("error", .vObj [("message", .vStr "Internal server error")])] = _
    unfold parseObj
    rw [show alookup "error" [("error", JsValue.vObj [("message", JsValue.vStr "Internal server error")])]
      = some (JsValue.vObj [("message", JsValue.vStr "Internal server error")]) from rfl]
    simp only [hn]
    decide

/-- Witness for C8 at a concrete keyword-free string. -/
theorem c8_classifier_totality_witness :
    containsRotationKeywords "hello" = false ∧
    parseError (.vStr "hello") = ⟨false, .other, .unknown, "hello"⟩ := by
  exact ⟨by decide, c8_classifier_totality.2.2.2.1 "hello" (by decide)⟩

/-- Witness for C7 at a concrete disabled configuration and a concrete
two-model pool. -/
theorem c7_disabled_or_trivial_pool_noop_witness :
    ((⟨false, .calls, 10, 60000⟩ : RotationConfig).enabled = false ∨
      (["a", "b"] : List String).length ≤ 1) ∧
    shouldRotate ⟨false, .calls, 10, 60000⟩ 100 "a" ["a", "b"] ⟨[], 0⟩
      = ({ rotated := false, nextModel := none, reason := none, allDepleted := false },
          (⟨[], 0⟩ : Store)) := by
  exact ⟨by decide,
    (c7_disabled_or_trivial_pool_noop ⟨false, .calls, 10, 60000⟩ 100 "a" ["a", "b"] ⟨[], 0⟩
      (by decide)).1⟩

end ModelRotation
